import Mathlib

/-!
Verification of the availability engine of server.js (google-calendar-assistant).

The embedding models JavaScript `Date` values as integers (milliseconds since
the Unix epoch, UTC).  The date-fns-tz conversions `zonedTimeToUtc` and
`utcToZonedTime` are modelled as the two function fields of `Timezone`; the
server process is assumed to run with its local clock set to UTC, the standard
deployment configuration, so `getDay`/`getHours` on a shifted Date are the
UTC field extractors `jsDay`/`jsHour` applied to the shifted epoch value.
`addMinutes d m` is `d + m * 60000`.
-/

/-- Model of a timezone: `toUtc` is date-fns-tz `zonedTimeToUtc` (wall-clock
epoch value in the zone to absolute UTC instant), `toLocal` is
`utcToZonedTime` (absolute UTC instant to wall-clock epoch value). -/
structure Timezone where
  toUtc : Int → Int
  toLocal : Int → Int

/-- The RULES object of server.js: work days (0=Sunday..6=Saturday), local
work-hour bounds, slot grid step, buffer and minimum notice in minutes. -/
structure Rules where
  workDays : List Int
  workStartHour : Int
  workEndHour : Int
  slotIntervalMin : Int
  bufferMin : Int
  minNoticeMin : Int
deriving DecidableEq, Repr

/-- A busy interval as fetched from the free/busy provider; field names follow
the locals `bStart`/`bEnd` in the overlap test of computeAvailability. -/
structure BusyInterval where
  bStart : Int
  bEnd : Int
deriving DecidableEq, Repr

/-- JavaScript `Date.prototype.getUTCHours`: floor division semantics; for the
positive divisor, Euclidean division coincides with floor division. -/
def jsHour (t : Int) : Int := (Int.ediv t 3600000).emod 24

/-- JavaScript `Date.prototype.getUTCDay` (epoch day 0 was a Thursday, 4). -/
def jsDay (t : Int) : Int := (Int.ediv t 86400000 + 4).emod 7

/-- Gregorian leap-year rule, as used by JavaScript Date parsing. -/
def isLeapYear (y : Int) : Bool :=
  (y.emod 4 == 0 && y.emod 100 != 0) || y.emod 400 == 0

/-- Number of days in a month of a given year. -/
def daysInMonth (y m : Int) : Int :=
  if m = 2 then (if isLeapYear y then 29 else 28)
  else if m = 4 ∨ m = 6 ∨ m = 9 ∨ m = 11 then 30
  else 31

/-- Days since 1970-01-01 of a civil date (standard era-based algorithm);
all divisions have positive divisors, where Euclidean = floor division. -/
def daysFromCivil (y m d : Int) : Int :=
  let yr := if m ≤ 2 then y - 1 else y
  let era := Int.ediv yr 400
  let yoe := yr - era * 400
  let mp := (m + 9).emod 12
  let doy := Int.ediv (153 * mp + 2) 5 + d - 1
  let doe := yoe * 365 + Int.ediv yoe 4 - Int.ediv yoe 100 + doy
  era * 146097 + doe - 719468

/-- Model of `new Date(date)` on computeAvailability's documented input form
`YYYY-MM-DD` (the ECMA-262 date-only form): the UTC-midnight epoch value when
the string is a real calendar date, `none` (an Invalid Date) otherwise. -/
def parseDate (s : String) : Option Int :=
  match s.toList with
  | [y1, y2, y3, y4, s1, mo1, mo2, s2, d1, d2] =>
    if s1 = '-' ∧ s2 = '-' ∧ (y1.isDigit ∧ y2.isDigit ∧ y3.isDigit ∧ y4.isDigit)
        ∧ (mo1.isDigit ∧ mo2.isDigit) ∧ (d1.isDigit ∧ d2.isDigit) then
      let dv : Char → Int := fun c => (c.toNat : Int) - 48
      let y := 1000 * dv y1 + 100 * dv y2 + 10 * dv y3 + dv y4
      let m := 10 * dv mo1 + dv mo2
      let d := 10 * dv d1 + dv d2
      if 1 ≤ m ∧ m ≤ 12 ∧ 1 ≤ d ∧ d ≤ daysInMonth y m then
        some (daysFromCivil y m d * 86400000)
      else none
    else none
  | _ => none

/-- The `busy.some(...)` test of computeAvailability: does the buffer-padded
slot `[slotStartBuf, slotEndBuf)` overlap (open intersection) some interval? -/
def overlapsBusy (busy : List BusyInterval) (slotStartBuf slotEndBuf : Int) : Bool :=
  busy.any fun b => decide (slotStartBuf < b.bEnd) && decide (slotEndBuf > b.bStart)

/-- withinWorkHours of server.js: convert the instant to local time and check
weekday membership and the half-open local-hour range. -/
def withinWorkHours (r : Rules) (tz : Timezone) (t : Int) : Bool :=
  let l := tz.toLocal t
  r.workDays.contains (jsDay l) &&
    (decide (r.workStartHour ≤ jsHour l) && decide (jsHour l < r.workEndHour))

/-- The while-loop of computeAvailability.  `fuel` bounds the number of
iterations; the initial fuel supplied by `computeAvailability` strictly
exceeds the iteration count whenever the grid step is positive, which is
exactly when the source loop terminates, so on that domain this function is
the loop.  Branches, in source order: loop guard `cursorUtc < endUtc`,
break when `slotEnd > endUtc`, minimum-notice skip, buffer/work-hour emit. -/
def scan (r : Rules) (tz : Timezone) (busy : List BusyInterval)
    (nowUtc durationMin endUtc : Int) : Nat → Int → List Int
  | 0, _ => []
  | fuel + 1, cursorUtc =>
    if cursorUtc < endUtc then
      if cursorUtc + durationMin * 60000 > endUtc then []
      else if nowUtc + r.minNoticeMin * 60000 > cursorUtc then
        scan r tz busy nowUtc durationMin endUtc fuel (cursorUtc + r.slotIntervalMin * 60000)
      else if !overlapsBusy busy (cursorUtc - r.bufferMin * 60000)
            (cursorUtc + durationMin * 60000 + r.bufferMin * 60000)
          && withinWorkHours r tz cursorUtc then
        cursorUtc ::
          scan r tz busy nowUtc durationMin endUtc fuel (cursorUtc + r.slotIntervalMin * 60000)
      else
        scan r tz busy nowUtc durationMin endUtc fuel (cursorUtc + r.slotIntervalMin * 60000)
    else []

/-- The work-hour window of a day: local midnight plus the work-hour bounds,
each converted to UTC (`zonedTimeToUtc(setHours(dayStartLocal, h), tz)`). -/
def workWindow (r : Rules) (tz : Timezone) (dayStartLocal : Int) : Int × Int :=
  (tz.toUtc (dayStartLocal + r.workStartHour * 3600000),
   tz.toUtc (dayStartLocal + r.workEndHour * 3600000))

/-- Failure kinds of computeAvailability per the specification's taxonomy.
The source signals an invalid date by the RangeError thrown by
`toISOString()` on an Invalid Date, labelled `invalidDate` here;
`invalidDuration` is in the taxonomy but no code path produces it. -/
inductive AvailError where
  | invalidDate : AvailError
  | invalidDuration : AvailError
deriving DecidableEq, Repr

/-- computeAvailability of server.js.  The current instant and the busy list
returned by the provider round trip are injected as parameters.  An invalid
date string fails before the provider call and before any scanning. -/
def computeAvailability (r : Rules) (tz : Timezone) (nowUtc : Int)
    (busy : List BusyInterval) (date : String) (durationMin : Int) :
    Except AvailError (List Int) :=
  match parseDate date with
  | none => .error .invalidDate
  | some dayStartLocal =>
    let w := workWindow r tz dayStartLocal
    .ok (scan r tz busy nowUtc durationMin w.2 ((w.2 - w.1).toNat + 1) w.1)

/-- An input string of normalizeRange, abstracted by what the source observes
of it: whether it matches the bare-date regexp, and its parse result
(`midnight` is both the `new Date` and the `parseISO` value of a bare date,
under the server-in-UTC convention; `none` models an Invalid Date). -/
inductive RangeInput where
  | dateOnly (midnight : Option Int) : RangeInput
  | other (parsed : Option Int) : RangeInput
deriving DecidableEq, Repr

/-- date-fns `parseISO` on the modelled input. -/
def RangeInput.parseValue : RangeInput → Option Int
  | .dateOnly m => m
  | .other p => p

/-- The `isDateOnly` regexp test of normalizeRange. -/
def RangeInput.isDateOnly : RangeInput → Bool
  | .dateOnly _ => true
  | .other _ => false

/-- Failure kinds of normalizeRange: `invalidRange` is the explicit
`Invalid start/end` throw; `invalidTime` is the RangeError thrown by
`toISOString()` when a bare-date input is not a real date. -/
inductive RangeError where
  | missingParams : RangeError
  | invalidRange : RangeError
  | invalidTime : RangeError
deriving DecidableEq, Repr

/-- normalizeRange of server.js, for present (non-empty) inputs: when both
inputs are bare dates, the full-day local span converted through the zone;
otherwise both go through parseISO, failing when either is invalid. -/
def normalizeRange (tz : Timezone) (s e : RangeInput) : Except RangeError (Int × Int) :=
  match s, e with
  | .dateOnly (some ms), .dateOnly (some me) =>
      .ok (tz.toUtc ms, tz.toUtc (me + 86399999))
  | .dateOnly _, .dateOnly _ => .error .invalidTime
  | s, e =>
    match s.parseValue, e.parseValue with
    | some a, some b => .ok (a, b)
    | _, _ => .error .invalidRange

/-! Concrete fixtures used by the witnesses: the default RULES of server.js,
the UTC zone, one busy interval on 2025-08-20 (a Wednesday), and the instant
2025-08-20T07:00Z as "now". -/

/-- Default scheduling rules: Monday-Friday, 9-17 local, 30-minute grid,
10-minute buffer, 120-minute minimum notice. -/
def rules0 : Rules := ⟨[1, 2, 3, 4, 5], 9, 17, 30, 10, 120⟩

/-- The UTC zone: both conversions are the identity. -/
def tzUtc : Timezone := ⟨fun t => t, fun t => t⟩

/-- A zone one hour east of UTC (fixed offset). -/
def tzShift : Timezone := ⟨fun t => t - 3600000, fun t => t + 3600000⟩

/-- One busy interval, 2025-08-20T10:00Z to 2025-08-20T10:30Z. -/
def busy0 : List BusyInterval := [⟨1755684000000, 1755685800000⟩]

/-- The injected current instant, 2025-08-20T07:00Z. -/
def now0 : Int := 1755673200000

/-- The candidate list computeAvailability yields on the fixture inputs with
a 30-minute duration: 09:00Z, then 11:00Z through 16:30Z on the half-hour
grid (09:30Z-10:30Z are suppressed by the buffered busy interval). -/
def out0 : List Int :=
  [1755680400000, 1755687600000, 1755689400000, 1755691200000, 1755693000000,
   1755694800000, 1755696600000, 1755698400000, 1755700200000, 1755702000000,
   1755703800000, 1755705600000, 1755707400000]

/-! Shared lemmas about the scan loop. -/

/-- Every emitted start lies strictly inside the loop guard, satisfies the
finish-within-window test, passed the buffer check and the work-hour check. -/
theorem mem_scan_checks (r : Rules) (tz : Timezone) (busy : List BusyInterval)
    (nowUtc durationMin endUtc : Int) :
    ∀ (fuel : Nat) (cursorUtc s : Int),
      s ∈ scan r tz busy nowUtc durationMin endUtc fuel cursorUtc →
      s < endUtc ∧ s + durationMin * 60000 ≤ endUtc ∧
      overlapsBusy busy (s - r.bufferMin * 60000)
        (s + durationMin * 60000 + r.bufferMin * 60000) = false ∧
      withinWorkHours r tz s = true := by
  intro fuel
  induction fuel with
  | zero => intro c s hs; simp [scan] at hs
  | succ n ih =>
    intro c s hs
    simp only [scan] at hs
    split at hs
    · rename_i hcur
      split at hs
      · simp at hs
      · rename_i hbreak
        split at hs
        · exact ih _ s hs
        · split at hs
          · rename_i hcond
            rcases List.mem_cons.mp hs with rfl | hmem
            · simp only [Bool.and_eq_true, Bool.not_eq_true'] at hcond
              exact ⟨hcur, by omega, hcond.1, hcond.2⟩
            · exact ih _ s hmem
          · exact ih _ s hs
    · simp at hs

/-- With a non-negative grid step, every emitted start is at or after the
cursor it was scanned from, and lies on the cursor's slot grid. -/
theorem mem_scan_grid (r : Rules) (tz : Timezone) (busy : List BusyInterval)
    (nowUtc durationMin endUtc : Int) (hslot : 0 ≤ r.slotIntervalMin) :
    ∀ (fuel : Nat) (cursorUtc s : Int),
      s ∈ scan r tz busy nowUtc durationMin endUtc fuel cursorUtc →
      cursorUtc ≤ s ∧ ∃ k : ℕ, s = cursorUtc + k * (r.slotIntervalMin * 60000) := by
  intro fuel
  have hstep : 0 ≤ r.slotIntervalMin * 60000 := by omega
  induction fuel with
  | zero => intro c s hs; simp [scan] at hs
  | succ n ih =>
    intro c s hs
    have step :
        s ∈ scan r tz busy nowUtc durationMin endUtc n (c + r.slotIntervalMin * 60000) →
        c ≤ s ∧ ∃ k : ℕ, s = c + k * (r.slotIntervalMin * 60000) := by
      intro hmem
      obtain ⟨h1, k, hk⟩ := ih _ s hmem
      refine ⟨by omega, k + 1, ?_⟩
      push_cast
      linarith [hk]
    simp only [scan] at hs
    split at hs
    · split at hs
      · simp at hs
      · split at hs
        · exact step hs
        · split at hs
          · rcases List.mem_cons.mp hs with rfl | hmem
            · exact ⟨le_refl _, 0, by simp⟩
            · exact step hmem
          · exact step hs
    · simp at hs

/-- With a positive grid step the scan output is strictly ascending. -/
theorem scan_pairwise (r : Rules) (tz : Timezone) (busy : List BusyInterval)
    (nowUtc durationMin endUtc : Int) (hslot : 0 < r.slotIntervalMin) :
    ∀ (fuel : Nat) (cursorUtc : Int),
      List.Pairwise (· < ·) (scan r tz busy nowUtc durationMin endUtc fuel cursorUtc) := by
  intro fuel
  induction fuel with
  | zero => intro c; simp [scan]
  | succ n ih =>
    intro c
    simp only [scan]
    split
    · split
      · simp
      · split
        · exact ih _
        · split
          · refine List.Pairwise.cons ?_ (ih _)
            intro s hs
            have h1 := (mem_scan_grid r tz busy nowUtc durationMin endUtc
              (le_of_lt hslot) n _ s hs).1
            omega
          · exact ih _
    · simp

/-- Completeness of the scan: a grid position whose occupancy fits within the
window (here stated for the boundary case of interest, occupancy ending
exactly at `endUtc`) and which passes the notice, buffer and work-hour
checks is emitted, provided the fuel exceeds the remaining measure. -/
theorem scan_reach (r : Rules) (tz : Timezone) (busy : List BusyInterval)
    (nowUtc durationMin endUtc : Int)
    (hslot : 0 < r.slotIntervalMin) (hdur : 0 < durationMin) :
    ∀ (k : ℕ) (fuel : Nat) (cursorUtc : Int),
      (endUtc - cursorUtc).toNat < fuel →
      cursorUtc + k * (r.slotIntervalMin * 60000) + durationMin * 60000 = endUtc →
      ¬(nowUtc + r.minNoticeMin * 60000 > cursorUtc + k * (r.slotIntervalMin * 60000)) →
      overlapsBusy busy
        (cursorUtc + k * (r.slotIntervalMin * 60000) - r.bufferMin * 60000)
        (cursorUtc + k * (r.slotIntervalMin * 60000) + durationMin * 60000
          + r.bufferMin * 60000) = false →
      withinWorkHours r tz (cursorUtc + k * (r.slotIntervalMin * 60000)) = true →
      cursorUtc + k * (r.slotIntervalMin * 60000) ∈
        scan r tz busy nowUtc durationMin endUtc fuel cursorUtc := by
  intro k
  induction k with
  | zero =>
    intro fuel c hfuel hend hnotice hbusy hwwh
    simp only [Nat.cast_zero, zero_mul, add_zero] at hend hnotice hbusy hwwh ⊢
    match fuel with
    | 0 => omega
    | n + 1 =>
      have hcur : c < endUtc := by omega
      have hbreak : ¬(c + durationMin * 60000 > endUtc) := by omega
      have hcond : (!overlapsBusy busy (c - r.bufferMin * 60000)
          (c + durationMin * 60000 + r.bufferMin * 60000)
          && withinWorkHours r tz c) = true := by
        simp [Bool.and_eq_true, Bool.not_eq_true', hbusy, hwwh]
      rw [scan, if_pos hcur, if_neg hbreak, if_neg hnotice, if_pos hcond]
      exact List.mem_cons_self _ _
  | succ k ih =>
    intro fuel c hfuel hend hnotice hbusy hwwh
    have hstep : (0:ℤ) < r.slotIntervalMin * 60000 := by omega
    have hks : (0:ℤ) ≤ (k : ℤ) * (r.slotIntervalMin * 60000) :=
      mul_nonneg (Int.natCast_nonneg k) (le_of_lt hstep)
    have hcast : ((k : ℕ) + 1 : ℤ) * (r.slotIntervalMin * 60000)
        = (k : ℤ) * (r.slotIntervalMin * 60000) + r.slotIntervalMin * 60000 := by ring
    have hEq : c + ((k : ℕ) + 1 : ℤ) * (r.slotIntervalMin * 60000)
        = (c + r.slotIntervalMin * 60000) + (k : ℤ) * (r.slotIntervalMin * 60000) := by
      rw [hcast]; ring
    push_cast at hend hnotice hbusy hwwh ⊢
    rw [hEq] at hend hnotice hbusy hwwh ⊢
    have hdms : (0:ℤ) < durationMin * 60000 := by omega
    have hcur : c < endUtc := by linarith
    have hbreak : ¬(c + durationMin * 60000 > endUtc) := by linarith
    match fuel with
    | 0 => exact absurd hfuel (by omega)
    | n + 1 =>
      have hfuel2 : (endUtc - (c + r.slotIntervalMin * 60000)).toNat < n := by
        have h1 : (0:ℤ) < endUtc - c := by linarith
        have h2 : (60000:ℤ) ≤ r.slotIntervalMin * 60000 := by omega
        omega
      have hrec := ih n (c + r.slotIntervalMin * 60000) hfuel2 hend hnotice hbusy hwwh
      rw [scan, if_pos hcur, if_neg hbreak]
      by_cases hn1 : nowUtc + r.minNoticeMin * 60000 > c
      · rw [if_pos hn1]; exact hrec
      · rw [if_neg hn1]
        by_cases hc1 : (!overlapsBusy busy (c - r.bufferMin * 60000)
            (c + durationMin * 60000 + r.bufferMin * 60000)
            && withinWorkHours r tz c) = true
        · rw [if_pos hc1]; exact List.mem_cons_of_mem _ hrec
        · rw [if_neg hc1]; exact hrec

/-- If every instant of the window `[lo, endUtc)` falls on a weekday outside
the configured work days, the scan emits nothing from any cursor at or after
`lo` (the work-hour check fails at every considered position). -/
theorem scan_empty_of_no_workday (r : Rules) (tz : Timezone) (busy : List BusyInterval)
    (nowUtc durationMin endUtc lo : Int) (hslot : 0 ≤ r.slotIntervalMin)
    (hday : ∀ t : Int, lo ≤ t → t < endUtc →
      r.workDays.contains (jsDay (tz.toLocal t)) = false) :
    ∀ (fuel : Nat) (cursorUtc : Int), lo ≤ cursorUtc →
      scan r tz busy nowUtc durationMin endUtc fuel cursorUtc = [] := by
  intro fuel
  induction fuel with
  | zero => intro c hc; simp [scan]
  | succ n ih =>
    intro c hc
    have hnext : lo ≤ c + r.slotIntervalMin * 60000 := by omega
    simp only [scan]
    split
    · rename_i hcur
      split
      · rfl
      · have hwwh : withinWorkHours r tz c = false := by
          have h1 := hday c hc hcur
          show (r.workDays.contains (jsDay (tz.toLocal c)) &&
            (decide (r.workStartHour ≤ jsHour (tz.toLocal c)) &&
              decide (jsHour (tz.toLocal c) < r.workEndHour))) = false
          rw [h1]
          rfl
        split
        · exact ih _ hnext
        · rw [if_neg (by simp [hwwh]), ih _ hnext]
    · rfl

/-- Characterization of the buffer check: it stays quiet exactly when every
fetched busy interval ends at or before the padded start or begins at or
after the padded end, so mere touching never counts as an overlap. -/
theorem overlapsBusy_eq_false_iff (busy : List BusyInterval) (sb eb : Int) :
    overlapsBusy busy sb eb = false ↔ ∀ b ∈ busy, b.bEnd ≤ sb ∨ eb ≤ b.bStart := by
  simp only [overlapsBusy, List.any_eq_false, Bool.and_eq_true, decide_eq_true_eq,
    not_and, not_lt]
  constructor
  · intro h b hb
    have := h b hb
    omega
  · intro h b hb
    have := h b hb
    omega

/-- On a parsed date, a successful computeAvailability returns exactly the
scan of the work window. -/
theorem computeAvailability_ok_eq (r : Rules) (tz : Timezone) (nowUtc : Int)
    (busy : List BusyInterval) (date : String) (durationMin d0 : Int)
    (out : List Int) (hparse : parseDate date = some d0)
    (hok : computeAvailability r tz nowUtc busy date durationMin = .ok out) :
    out = scan r tz busy nowUtc durationMin (workWindow r tz d0).2
      (((workWindow r tz d0).2 - (workWindow r tz d0).1).toNat + 1)
      (workWindow r tz d0).1 := by
  simp only [computeAvailability, hparse] at hok
  injection hok with h
  exact h.symm

/-- C1: every candidate emitted by computeAvailability has a buffer-padded
occupancy `[s - bufferMinutes, s + durationMinutes + bufferMinutes)` whose
open intersection with every fetched busy interval is empty: each busy
interval ends at or before the padded start or begins at or after the padded
end (first conjunct); and a busy list all of whose members merely touch (or
are disjoint from) the padded bounds never fires the buffer check, so
touching does not suppress a candidate (second conjunct).  No ordering or
disjointness of the busy list is assumed. -/
theorem C1_padded_occupancy_disjoint (r : Rules) (tz : Timezone) (nowUtc : Int)
    (busy : List BusyInterval) (date : String) (durationMin : Int) :
    (∀ out, computeAvailability r tz nowUtc busy date durationMin = .ok out →
      ∀ s ∈ out, ∀ b ∈ busy,
        b.bEnd ≤ s - r.bufferMin * 60000 ∨
        s + durationMin * 60000 + r.bufferMin * 60000 ≤ b.bStart) ∧
    (∀ sb eb : Int, (∀ b ∈ busy, b.bEnd ≤ sb ∨ eb ≤ b.bStart) →
      overlapsBusy busy sb eb = false) := by
  constructor
  · intro out hok s hs b hb
    cases hparse : parseDate date with
    | none => rw [computeAvailability, hparse] at hok; exact absurd hok (by simp)
    | some d0 =>
      rw [computeAvailability_ok_eq r tz nowUtc busy date durationMin d0 out hparse hok] at hs
      have h := (mem_scan_checks r tz busy nowUtc durationMin _ _ _ s hs).2.2.1
      exact (overlapsBusy_eq_false_iff busy _ _).mp h b hb
  · intro sb eb h
    exact (overlapsBusy_eq_false_iff busy sb eb).mpr h

/-- C1 witness: on the fixtures, the candidate 2025-08-20T09:00Z is emitted
and its padded occupancy ends exactly at the busy interval's start, so the
second disjunct holds there. -/
theorem C1_padded_occupancy_disjoint_witness :
    (1755685800000 : Int) ≤ 1755680400000 - rules0.bufferMin * 60000 ∨
    (1755680400000 : Int) + 30 * 60000 + rules0.bufferMin * 60000 ≤ 1755684000000 :=
  (C1_padded_occupancy_disjoint rules0 tzUtc now0 busy0 "2025-08-20" 30).1
    out0 (by rfl) 1755680400000 (by simp [out0])
    ⟨1755684000000, 1755685800000⟩ (by simp [busy0])

/-- C2: with a positive grid step and duration, every emitted candidate
satisfies `window.start ≤ s` and `s + durationMinutes ≤ window.end` (first
conjunct), and a grid position whose unpadded occupancy ends exactly at
`window.end` is emitted whenever the notice, buffer and work-hour checks
pass there (second conjunct). -/
theorem C2_window_bounds (r : Rules) (tz : Timezone) (nowUtc : Int)
    (busy : List BusyInterval) (date : String) (durationMin d0 : Int)
    (out : List Int) (hparse : parseDate date = some d0)
    (hslot : 0 < r.slotIntervalMin) (hdur : 0 < durationMin)
    (hok : computeAvailability r tz nowUtc busy date durationMin = .ok out) :
    (∀ s ∈ out, (workWindow r tz d0).1 ≤ s ∧
      s + durationMin * 60000 ≤ (workWindow r tz d0).2) ∧
    (∀ k : ℕ,
      (workWindow r tz d0).1 + k * (r.slotIntervalMin * 60000) + durationMin * 60000
          = (workWindow r tz d0).2 →
      ¬(nowUtc + r.minNoticeMin * 60000 >
          (workWindow r tz d0).1 + k * (r.slotIntervalMin * 60000)) →
      overlapsBusy busy
          ((workWindow r tz d0).1 + k * (r.slotIntervalMin * 60000)
            - r.bufferMin * 60000)
          ((workWindow r tz d0).1 + k * (r.slotIntervalMin * 60000)
            + durationMin * 60000 + r.bufferMin * 60000) = false →
      withinWorkHours r tz
          ((workWindow r tz d0).1 + k * (r.slotIntervalMin * 60000)) = true →
      (workWindow r tz d0).1 + k * (r.slotIntervalMin * 60000) ∈ out) := by
  have hout := computeAvailability_ok_eq r tz nowUtc busy date durationMin d0 out hparse hok
  subst hout
  constructor
  · intro s hs
    have h1 := (mem_scan_grid r tz busy nowUtc durationMin _ (le_of_lt hslot) _ _ s hs).1
    have h2 := (mem_scan_checks r tz busy nowUtc durationMin _ _ _ s hs).2.1
    exact ⟨h1, h2⟩
  · intro k hend hnotice hbusy hwwh
    exact scan_reach r tz busy nowUtc durationMin _ hslot hdur k _ _
      (by omega) hend hnotice hbusy hwwh

/-- C2 witness: on the fixtures the grid position 16:30Z (k = 15) has its
occupancy ending exactly at the window end 17:00Z, passes all other checks,
and is indeed in the returned list. -/
theorem C2_window_bounds_witness : (1755707400000 : Int) ∈ out0 := by
  have h := (C2_window_bounds rules0 tzUtc now0 busy0 "2025-08-20" 30 1755648000000
    out0 (by rfl) (by decide) (by decide) (by rfl)).2 15
    (by decide) (by decide) (by decide) (by decide)
  simpa using h

/-- C3: with a positive grid step, the returned sequence is strictly
ascending in start instant and every emitted start lies on the scan grid
`window.start + k * slotIntervalMinutes` for some natural `k`. -/
theorem C3_sorted_on_grid (r : Rules) (tz : Timezone) (nowUtc : Int)
    (busy : List BusyInterval) (date : String) (durationMin d0 : Int)
    (out : List Int) (hparse : parseDate date = some d0)
    (hslot : 0 < r.slotIntervalMin)
    (hok : computeAvailability r tz nowUtc busy date durationMin = .ok out) :
    List.Pairwise (· < ·) out ∧
    ∀ s ∈ out, ∃ k : ℕ,
      s = (workWindow r tz d0).1 + k * (r.slotIntervalMin * 60000) := by
  have hout := computeAvailability_ok_eq r tz nowUtc busy date durationMin d0 out hparse hok
  subst hout
  constructor
  · exact scan_pairwise r tz busy nowUtc durationMin _ hslot _ _
  · intro s hs
    exact (mem_scan_grid r tz busy nowUtc durationMin _ (le_of_lt hslot) _ _ s hs).2

/-- C3 witness: on the fixtures the output is strictly ascending, and its
second element 11:00Z sits on the grid (k = 4). -/
theorem C3_sorted_on_grid_witness :
    List.Pairwise (· < ·) out0 ∧
    ∃ k : ℕ, (1755687600000 : Int) =
      (workWindow rules0 tzUtc 1755648000000).1 + k * (rules0.slotIntervalMin * 60000) := by
  have h := C3_sorted_on_grid rules0 tzUtc now0 busy0 "2025-08-20" 30 1755648000000
    out0 (by rfl) (by decide) (by rfl)
  exact ⟨h.1, h.2 1755687600000 (by simp [out0])⟩

/-- C4: in the slot scan, a cursor with `cursor < now + minNoticeMinutes` is
skipped without emitting a candidate and the scan simply continues from the
next grid position (first conjunct: the result equals the scan restarted at
`cursor + slotIntervalMinutes`, so the notice check never terminates the
scan); and a cursor exactly equal to `now + minNoticeMinutes` passes the
strict notice comparison, so it is emitted when the remaining checks pass
(second conjunct). -/
theorem C4_notice_skip_boundary (r : Rules) (tz : Timezone)
    (busy : List BusyInterval) (nowUtc durationMin endUtc cursorUtc : Int)
    (fuel : Nat) (hcur : cursorUtc < endUtc)
    (hfit : ¬(cursorUtc + durationMin * 60000 > endUtc)) :
    (nowUtc + r.minNoticeMin * 60000 > cursorUtc →
      scan r tz busy nowUtc durationMin endUtc (fuel + 1) cursorUtc =
        scan r tz busy nowUtc durationMin endUtc fuel
          (cursorUtc + r.slotIntervalMin * 60000)) ∧
    (cursorUtc = nowUtc + r.minNoticeMin * 60000 →
      overlapsBusy busy (cursorUtc - r.bufferMin * 60000)
        (cursorUtc + durationMin * 60000 + r.bufferMin * 60000) = false →
      withinWorkHours r tz cursorUtc = true →
      scan r tz busy nowUtc durationMin endUtc (fuel + 1) cursorUtc =
        cursorUtc :: scan r tz busy nowUtc durationMin endUtc fuel
          (cursorUtc + r.slotIntervalMin * 60000)) := by
  constructor
  · intro hn
    rw [scan, if_pos hcur, if_neg hfit, if_pos hn]
  · intro hb hov hww
    have hn : ¬(nowUtc + r.minNoticeMin * 60000 > cursorUtc) := by omega
    have hcond : (!overlapsBusy busy (cursorUtc - r.bufferMin * 60000)
        (cursorUtc + durationMin * 60000 + r.bufferMin * 60000)
        && withinWorkHours r tz cursorUtc) = true := by
      simp [Bool.and_eq_true, Bool.not_eq_true', hov, hww]
    rw [scan, if_pos hcur, if_neg hfit, if_neg hn, if_pos hcond]

/-- C4 witness: on the fixtures the cursor 09:00Z equals exactly
`now + 120 minutes`, the boundary instant, and is accepted and emitted. -/
theorem C4_notice_skip_boundary_witness :
    scan rules0 tzUtc busy0 now0 30 1755709200000 17 1755680400000 =
      1755680400000 ::
        scan rules0 tzUtc busy0 now0 30 1755709200000 16 1755682200000 := by
  have h := (C4_notice_skip_boundary rules0 tzUtc busy0 now0 30 1755709200000
    1755680400000 16 (by decide) (by decide)).2 (by decide) (by decide) (by decide)
  simpa using h

/-- C5: every emitted start, converted to local time in the request zone,
has its weekday in the configured work days and its local hour within
`[workStartHour, workEndHour)` (first conjunct); and for a date whose whole
work window falls on a weekday outside the work days, computeAvailability
returns the empty sequence, whatever the fetched busy intervals (second
conjunct). -/
theorem C5_local_work_hours (r : Rules) (tz : Timezone) (nowUtc : Int)
    (busy : List BusyInterval) (date : String) (durationMin d0 : Int)
    (hparse : parseDate date = some d0) (hslot : 0 ≤ r.slotIntervalMin) :
    (∀ out, computeAvailability r tz nowUtc busy date durationMin = .ok out →
      ∀ s ∈ out, r.workDays.contains (jsDay (tz.toLocal s)) = true ∧
        r.workStartHour ≤ jsHour (tz.toLocal s) ∧
        jsHour (tz.toLocal s) < r.workEndHour) ∧
    ((∀ t : Int, (workWindow r tz d0).1 ≤ t → t < (workWindow r tz d0).2 →
        r.workDays.contains (jsDay (tz.toLocal t)) = false) →
      computeAvailability r tz nowUtc busy date durationMin = .ok []) := by
  constructor
  · intro out hok s hs
    have hout := computeAvailability_ok_eq r tz nowUtc busy date durationMin d0 out hparse hok
    subst hout
    have h := (mem_scan_checks r tz busy nowUtc durationMin _ _ _ s hs).2.2.2
    simpa [withinWorkHours, Bool.and_eq_true, decide_eq_true_eq] using h
  · intro hday
    simp only [computeAvailability, hparse]
    rw [scan_empty_of_no_workday r tz busy nowUtc durationMin
      (workWindow r tz d0).2 (workWindow r tz d0).1 hslot hday _ _ (le_refl _)]

/-- C5 witness: 2025-08-23 is a Saturday, outside the Monday-Friday work
days, so on the fixtures (busy list and all) the result is the empty list;
the day-long hypothesis is discharged by computing the day number of every
instant of the window. -/
theorem C5_local_work_hours_witness :
    computeAvailability rules0 tzUtc now0 busy0 "2025-08-23" 30 = .ok [] := by
  refine (C5_local_work_hours rules0 tzUtc now0 busy0 "2025-08-23" 30
    1755907200000 (by rfl) (by decide)).2 ?_
  intro t h1 h2
  have hlo : (1755939600000 : Int) ≤ t := h1
  have hhi : t < (1755968400000 : Int) := h2
  have hd : Int.ediv t 86400000 = 20323 := by
    show t / 86400000 = 20323
    omega
  have hday6 : jsDay (tzUtc.toLocal t) = 6 := by
    show (Int.ediv t 86400000 + 4).emod 7 = 6
    rw [hd]
    decide
  rw [hday6]
  decide

/-- C6 counterexample: computeAvailability performs no duration validation.
With durationMinutes = 0 (≤ 0) and a valid date it does not fail with
InvalidDuration; it returns a non-empty candidate list (every grid position
trivially passes the finish-within-window test since the slot end does not
exceed the cursor). -/
theorem C6_no_invalid_duration_counterexample :
    computeAvailability rules0 tzUtc now0 busy0 "2025-08-20" 0 =
      .ok [1755680400000, 1755682200000, 1755687600000, 1755689400000,
        1755691200000, 1755693000000, 1755694800000, 1755696600000,
        1755698400000, 1755700200000, 1755702000000, 1755703800000,
        1755705600000, 1755707400000] ∧
    computeAvailability rules0 tzUtc now0 busy0 "2025-08-20" 0 ≠
      .error .invalidDuration := by
  constructor
  · rfl
  · intro h
    have h1 : computeAvailability rules0 tzUtc now0 busy0 "2025-08-20" 0 =
        .ok [1755680400000, 1755682200000, 1755687600000, 1755689400000,
          1755691200000, 1755693000000, 1755694800000, 1755696600000,
          1755698400000, 1755700200000, 1755702000000, 1755703800000,
          1755705600000, 1755707400000] := rfl
    rw [h1] at h
    exact Except.noConfusion h

/-- C6 amended: computeAvailability never rejects a non-positive duration;
for any valid date and durationMinutes ≤ 0 it succeeds, returning the
normally computed candidate sequence rather than an InvalidDuration
failure. -/
theorem C6_no_duration_validation (r : Rules) (tz : Timezone) (nowUtc : Int)
    (busy : List BusyInterval) (date : String) (durationMin d0 : Int)
    (hparse : parseDate date = some d0) (_hdur : durationMin ≤ 0) :
    ∃ out, computeAvailability r tz nowUtc busy date durationMin = .ok out := by
  have h : computeAvailability r tz nowUtc busy date durationMin =
      .ok (scan r tz busy nowUtc durationMin (workWindow r tz d0).2
        (((workWindow r tz d0).2 - (workWindow r tz d0).1).toNat + 1)
        (workWindow r tz d0).1) := by
    simp only [computeAvailability, hparse]
  exact ⟨_, h⟩

/-- C6 witness: the amended claim at the fixture inputs with duration 0. -/
theorem C6_no_duration_validation_witness :
    ∃ out, computeAvailability rules0 tzUtc now0 busy0 "2025-08-20" 0 = .ok out :=
  C6_no_duration_validation rules0 tzUtc now0 busy0 "2025-08-20" 0 1755648000000
    (by rfl) (by decide)

/-- C7: a date string that does not parse to a real calendar date makes
computeAvailability fail with InvalidDate immediately: the error is the
whole result, there is no candidate sequence and no partial output. -/
theorem C7_invalid_date (r : Rules) (tz : Timezone) (nowUtc : Int)
    (busy : List BusyInterval) (date : String) (durationMin : Int)
    (hparse : parseDate date = none) :
    computeAvailability r tz nowUtc busy date durationMin =
      .error .invalidDate := by
  simp only [computeAvailability, hparse]

/-- C7 witness: 2025-02-30 is not a real calendar date (February 2025 has 28
days), and computeAvailability rejects it with InvalidDate. -/
theorem C7_invalid_date_witness :
    computeAvailability rules0 tzUtc now0 busy0 "2025-02-30" 30 =
      .error .invalidDate :=
  C7_invalid_date rules0 tzUtc now0 busy0 "2025-02-30" 30 (by rfl)

/-- C8 counterexample: with two non-bare-date inputs that both parse but
whose start instant is after the end instant, normalizeRange succeeds (it
returns the pair unchanged) instead of failing with InvalidRange: ordering
is not enforced by the source. -/
theorem C8_no_ordering_counterexample :
    normalizeRange tzUtc (.other (some 1000)) (.other (some 0)) = .ok (1000, 0) := rfl

/-- C8 amended: when at least one input is not bare-date shaped, both inputs
are parsed as absolute timestamps; normalizeRange fails with InvalidRange
exactly when one of them does not parse, and succeeds with the two parsed
instants otherwise, with no ordering requirement between them. -/
theorem C8_timestamp_branch (tz : Timezone) (s e : RangeInput)
    (h : s.isDateOnly = false ∨ e.isDateOnly = false) :
    (∀ a b : Int, s.parseValue = some a → e.parseValue = some b →
      normalizeRange tz s e = .ok (a, b)) ∧
    ((s.parseValue = none ∨ e.parseValue = none) →
      normalizeRange tz s e = .error .invalidRange) := by
  cases s with
  | dateOnly ms =>
    cases e with
    | dateOnly me => simp [RangeInput.isDateOnly] at h
    | other pe =>
      constructor
      · intro a b ha hb
        simp only [RangeInput.parseValue] at ha hb
        simp [normalizeRange, RangeInput.parseValue, ha, hb]
      · intro hnone
        simp only [RangeInput.parseValue] at hnone
        rcases hnone with hn | hn <;>
          simp [normalizeRange, RangeInput.parseValue, hn]
  | other ps =>
    cases e with
    | dateOnly me =>
      constructor
      · intro a b ha hb
        simp only [RangeInput.parseValue] at ha hb
        simp [normalizeRange, RangeInput.parseValue, ha, hb]
      · intro hnone
        simp only [RangeInput.parseValue] at hnone
        rcases hnone with hn | hn <;>
          simp [normalizeRange, RangeInput.parseValue, hn]
    | other pe =>
      constructor
      · intro a b ha hb
        simp only [RangeInput.parseValue] at ha hb
        simp [normalizeRange, RangeInput.parseValue, ha, hb]
      · intro hnone
        simp only [RangeInput.parseValue] at hnone
        rcases hnone with hn | hn <;>
          simp [normalizeRange, RangeInput.parseValue, hn]

/-- C8 witness: a dateTime start paired with a bare-date end goes through
the timestamp branch and succeeds with the two parsed instants. -/
theorem C8_timestamp_branch_witness :
    normalizeRange tzUtc (.other (some 5)) (.dateOnly (some 7)) = .ok (5, 7) :=
  (C8_timestamp_branch tzUtc (.other (some 5)) (.dateOnly (some 7))
    (Or.inl rfl)).1 5 7 rfl rfl

/-- C9: computeAvailability is deterministic: two calls with equal rules,
timezone, current instant, busy-interval provider response, date and
duration yield identical output (the scan is pure; the only inputs are the
ones listed). -/
theorem C9_deterministic (r1 r2 : Rules) (tz1 tz2 : Timezone)
    (now1 now2 : Int) (busy1 busy2 : List BusyInterval)
    (date1 date2 : String) (dur1 dur2 : Int)
    (hr : r1 = r2) (htz : tz1 = tz2) (hn : now1 = now2) (hb : busy1 = busy2)
    (hd : date1 = date2) (hu : dur1 = dur2) :
    computeAvailability r1 tz1 now1 busy1 date1 dur1 =
      computeAvailability r2 tz2 now2 busy2 date2 dur2 := by
  subst hr htz hn hb hd hu
  rfl

/-- C9 witness: two identical fixture calls agree. -/
theorem C9_deterministic_witness :
    computeAvailability rules0 tzUtc now0 busy0 "2025-08-20" 30 =
      computeAvailability rules0 tzUtc now0 busy0 "2025-08-20" 30 :=
  C9_deterministic rules0 rules0 tzUtc tzUtc now0 now0 busy0 busy0
    "2025-08-20" "2025-08-20" 30 30 rfl rfl rfl rfl rfl rfl

/-- C10: when exactly one of the two inputs matches the bare calendar-date
shape, the full-day interpretation is applied to neither: both inputs go
through the absolute-timestamp branch, the call succeeds with the two parsed
instants whenever both parse (first conjunct), and the tz argument has no
effect on the returned window (second conjunct). -/
theorem C10_mixed_inputs_timestamp (s e : RangeInput)
    (h : s.isDateOnly ≠ e.isDateOnly) :
    (∀ a b : Int, s.parseValue = some a → e.parseValue = some b →
      ∀ tz : Timezone, normalizeRange tz s e = .ok (a, b)) ∧
    (∀ tz1 tz2 : Timezone, normalizeRange tz1 s e = normalizeRange tz2 s e) := by
  cases s with
  | dateOnly ms =>
    cases e with
    | dateOnly me => simp [RangeInput.isDateOnly] at h
    | other pe =>
      constructor
      · intro a b ha hb tz
        simp only [RangeInput.parseValue] at ha hb
        simp [normalizeRange, RangeInput.parseValue, ha, hb]
      · intro tz1 tz2
        simp [normalizeRange]
  | other ps =>
    cases e with
    | dateOnly me =>
      constructor
      · intro a b ha hb tz
        simp only [RangeInput.parseValue] at ha hb
        simp [normalizeRange, RangeInput.parseValue, ha, hb]
      · intro tz1 tz2
        simp [normalizeRange]
    | other pe => simp [RangeInput.isDateOnly] at h

/-- C10 witness: a bare-date start paired with a dateTime end yields the
same window under UTC and under a shifted zone, namely the parsed pair. -/
theorem C10_mixed_inputs_timestamp_witness :
    normalizeRange tzUtc (.dateOnly (some 900)) (.other (some 100)) =
      normalizeRange tzShift (.dateOnly (some 900)) (.other (some 100)) :=
  (C10_mixed_inputs_timestamp (.dateOnly (some 900)) (.other (some 100))
    (by simp [RangeInput.isDateOnly])).2 tzUtc tzShift
